import Mathlib

/-!
Verification of the order-capture-and-persistence logic of the
moonbeam-voice-barista-agent repository.

The repository's own logic is `save_order` in `src/barista_agent.py` plus
the session bootstrap in `src/agent.py`.  The embedding below translates
that Python code into Lean:

* `OrderState` mirrors the dataclass `OrderState`.
* JSON values written by `json.dump(asdict(order), f, indent=2)` are
  modelled as `Json` abstract values (`asdict` builds the object in the
  dataclass field order, which `json.dump` preserves); the textual
  serialisation / parsing round-trip is the Python `json` library's own
  guarantee and is treated as the identity on these values.
* The filesystem is modelled explicitly (`Fs`): a set of directories, an
  association list of files, and an environment-controlled error injector
  standing for OS-level failures (permission denied, disk full, invalid
  path) that `open`/`write` may raise.
* `datetime.utcnow()` is modelled by passing the current `DateTime`
  explicitly; `strftime "%Y%m%d-%H%M%S"` becomes `formatTimestamp`
  (zero-padded fixed-width decimal fields, which is what `strftime`
  produces for the in-range dates `datetime` can hold, year ≤ 9999).
-/

/-- The dataclass `OrderState` of `barista_agent.py`. -/
structure OrderState where
  drinkType : String
  size : String
  milk : String
  extras : List String
  name : String
deriving DecidableEq

/-- JSON values, as needed for the order files this program writes. -/
inductive Json where
  | str : String → Json
  | arr : List Json → Json
  | obj : List (String × Json) → Json
deriving BEq

/-- `dataclasses.asdict(order)`: the JSON object with the five fields in
dataclass declaration order, which `json.dump` serialises in that order. -/
def asdict (o : OrderState) : Json :=
  Json.obj
    [("drinkType", Json.str o.drinkType),
     ("size", Json.str o.size),
     ("milk", Json.str o.milk),
     ("extras", Json.arr (o.extras.map Json.str)),
     ("name", Json.str o.name)]

/-- `(name or "guest").replace(" ", "_")` from line 106 of
`barista_agent.py`: Python's `name or "guest"` yields `"guest"` exactly
when `name` is the empty string (the only falsy string), and
`str.replace(" ", "_")` of a one-character pattern replaces each space
character and touches nothing else, i.e. it is a character map. -/
def safe_name (name : String) : String :=
  String.mk (((if name = "" then "guest" else name)).data.map
    (fun c => if c = ' ' then '_' else c))

/-- A UTC wall-clock instant at second granularity, the part of Python's
`datetime` that `strftime("%Y%m%d-%H%M%S")` observes. -/
structure DateTime where
  year : Nat
  month : Nat
  day : Nat
  hour : Nat
  minute : Nat
  second : Nat
deriving DecidableEq

/-- Field ranges guaranteed by Python's `datetime` (with year ≥ 1000 so
that `%Y` is exactly four digits, as it is for every `utcnow()` result). -/
def ValidDateTime (t : DateTime) : Prop :=
  1000 ≤ t.year ∧ t.year ≤ 9999 ∧
  1 ≤ t.month ∧ t.month ≤ 12 ∧
  1 ≤ t.day ∧ t.day ≤ 31 ∧
  t.hour ≤ 23 ∧ t.minute ≤ 59 ∧ t.second ≤ 59

instance (t : DateTime) : Decidable (ValidDateTime t) := by
  unfold ValidDateTime; infer_instance

/-- Chronological (strict) order on clock instants: lexicographic on
(year, month, day, hour, minute, second). -/
def chronoLt (t₁ t₂ : DateTime) : Prop :=
  t₁.year < t₂.year ∨ (t₁.year = t₂.year ∧
    (t₁.month < t₂.month ∨ (t₁.month = t₂.month ∧
      (t₁.day < t₂.day ∨ (t₁.day = t₂.day ∧
        (t₁.hour < t₂.hour ∨ (t₁.hour = t₂.hour ∧
          (t₁.minute < t₂.minute ∨ (t₁.minute = t₂.minute ∧
            t₁.second < t₂.second)))))))))

instance (t₁ t₂ : DateTime) : Decidable (chronoLt t₁ t₂) := by
  unfold chronoLt; infer_instance

/-- The decimal digit character for `n < 10`. -/
def digitChar (n : Nat) : Char :=
  Char.ofNat (48 + n)

/-- Big-endian, zero-padded decimal digits of `n`, exactly `w` characters:
the output of a zero-padded `strftime` field for values below `10^w`. -/
def digitsBE : Nat → Nat → List Char
  | 0, _ => []
  | w + 1, n => digitsBE w (n / 10) ++ [digitChar (n % 10)]

/-- A zero-padded `w`-character decimal numeral as a string. -/
def padNum (w n : Nat) : String :=
  String.mk (digitsBE w n)

/-- `datetime.utcnow().strftime("%Y%m%d-%H%M%S")` (line 105): the format
directives `%Y %m %d %H %M %S` are zero-padded decimal fields of widths
4, 2, 2, 2, 2, 2 with a literal dash after the date part. -/
def formatTimestamp (t : DateTime) : String :=
  padNum 4 t.year ++ padNum 2 t.month ++ padNum 2 t.day ++ "-" ++
  padNum 2 t.hour ++ padNum 2 t.minute ++ padNum 2 t.second

/-- `os.path.join("orders", f"{timestamp}_{safe_name}.json")` (line 107);
on the POSIX hosts this agent targets, `os.path.join` inserts `/`. -/
def orderFilename (t : DateTime) (name : String) : String :=
  "orders" ++ "/" ++ formatTimestamp t ++ "_" ++ safe_name name ++ ".json"

/-- The confirmation message f-string of lines 116–117:
`f"Saved order for {name}: {size} {drinkType} with {milk} milk"`
`f"{' and ' + ', '.join(extras) if extras else ''}."` — the conditional
tests Python truthiness of the list, i.e. non-emptiness. -/
def orderMessage (drinkType size milk : String) (extras : List String)
    (name : String) : String :=
  "Saved order for " ++ name ++ ": " ++ size ++ " " ++ drinkType ++
    " with " ++ milk ++ " milk" ++
    (if extras.isEmpty then "" else " and " ++ String.intercalate ", " extras) ++
    "."

/-- OS-level filesystem failures that a write may raise (the error
taxonomy the spec names: permission denied, disk full, invalid path),
plus the `FileExistsError` that `os.makedirs` raises without
`exist_ok=True`. -/
inductive FsError where
  | permissionDenied
  | diskFull
  | invalidPath
  | fileExists
deriving DecidableEq

/-- The local filesystem as this program observes it: which directories
exist, the files (path ↦ JSON content written), and an injector assigning
to some paths the OS error that opening them for writing would raise. -/
structure Fs where
  dirs : List String
  files : List (String × Json)
  writeError : String → Option FsError

/-- `os.makedirs(d, exist_ok=ok)`: creates the directory if absent;
if it already exists it succeeds when `exist_ok` is set and raises
`FileExistsError` otherwise.  The path `"orders"` used by the program is
a single relative segment, so there are no missing parents to create. -/
def makedirs (dirs : List String) (d : String) (exist_ok : Bool) :
    Except FsError (List String) :=
  if dirs.contains d then
    if exist_ok then Except.ok dirs else Except.error FsError.fileExists
  else
    Except.ok (d :: dirs)

/-- `open(filename, "w")` followed by a full write: mode `"w"` truncates,
so any previous file at that path is replaced by the new content. -/
def setFile (files : List (String × Json)) (fn : String) (c : Json) :
    List (String × Json) :=
  (fn, c) :: files.filter (fun p => p.1 != fn)

/-- Look a file up by path. -/
def getFile (files : List (String × Json)) (fn : String) : Option Json :=
  (files.find? (fun p => p.1 == fn)).map (fun p => p.2)

/-- The dictionary returned by `save_order` (lines 112–120): exactly the
four keys `status`, `filename`, `message`, `order`. -/
structure SaveResult where
  status : String
  filename : String
  message : String
  order : Json

/-- The tool function `save_order` of `barista_agent.py` (lines 75–120),
with the ambient clock and filesystem passed explicitly.  Steps, in
source order: build the `OrderState`; `os.makedirs("orders",
exist_ok=True)`; compute timestamp, safe name and filename; open the file
for writing (any OS error the `open`/`json.dump` raises propagates — the
function body has no try/except) and write `asdict(order)`; return the
result dictionary. -/
def save_order (drinkType size milk : String) (extras : List String)
    (name : String) (now : DateTime) (fs : Fs) :
    Except FsError (SaveResult × Fs) :=
  let order : OrderState :=
    { drinkType := drinkType, size := size, milk := milk,
      extras := extras, name := name }
  match makedirs fs.dirs "orders" true with
  | Except.error e => Except.error e
  | Except.ok dirs =>
    let filename := orderFilename now name
    match fs.writeError filename with
    | some e => Except.error e
    | none =>
      let fs' : Fs :=
        { dirs := dirs,
          files := setFile fs.files filename (asdict order),
          writeError := fs.writeError }
      Except.ok
        ({ status := "saved",
           filename := filename,
           message := orderMessage drinkType size milk extras name,
           order := asdict order }, fs')

/-- The greeting instruction issued by `BaristaAgent.on_enter`
(`barista_agent.py` lines 64–71) via `session.generate_reply`. -/
def onEnterGreeting : String :=
  "Greet the user as a barista at Moonbeam Coffee and ask " ++
  "what they would like to order."

/-- The greeting instruction issued by `my_agent` in `agent.py`
(lines 49–54) via `session.generate_reply` right after `session.start`
returns. -/
def bootstrapGreeting : String :=
  "Greet the user as a coffee shop barista at Moonbeam Coffee. " ++
  "Ask what they\x27d like to order."

/-- Modelled from the spec: the hosting framework (livekit-agents, not
part of this repository) invokes the dialogue agent's entry hook
`on_enter` while `session.start(agent=BaristaAgent())` is running, so a
session start issues the `on_enter` greeting instruction followed by the
bootstrap's own `generate_reply` instruction once `start` has returned.
The two instruction strings themselves are taken verbatim from the
source. -/
def sessionStartGreetings : List String :=
  [onEnterGreeting] ++ [bootstrapGreeting]

/-- A clock instant used as the concrete test moment. -/
def t0 : DateTime :=
  ⟨2025, 1, 1, 12, 0, 0⟩

/-- A fresh filesystem: no directories, no files, no injected OS errors. -/
def cleanFs : Fs :=
  { dirs := [], files := [], writeError := fun _ => none }

/-- A filesystem in which opening the order file for Sam at `t0` raises
permission-denied. -/
def deniedFs : Fs :=
  { dirs := [], files := [],
    writeError := fun fn =>
      if fn = "orders/20250101-120000_Sam.json" then
        some FsError.permissionDenied
      else none }

/-- The JSON object of Sam's order from the end-to-end scenario. -/
def samJson : Json :=
  asdict ⟨"latte", "medium", "oat", ["extra shot"], "Sam"⟩

/-- The result record of Sam's save at `t0`. -/
def samResult : SaveResult :=
  { status := "saved", filename := orderFilename t0 "Sam",
    message := orderMessage "latte" "medium" "oat" ["extra shot"] "Sam",
    order := samJson }

/-! ### Helper lemmas: lexicographic order on character lists -/

lemma char_nil_not_lt_nil : ¬(([] : List Char) < []) :=
  List.Lex.not_nil_right _ _

lemma char_append_lt_append_iff :
    ∀ (a₁ a₂ b₁ b₂ : List Char), a₁.length = a₂.length →
      (a₁ ++ b₁ < a₂ ++ b₂ ↔ a₁ < a₂ ∨ (a₁ = a₂ ∧ b₁ < b₂))
  | [], [], b₁, b₂, _ => by
    simp only [List.nil_append]
    constructor
    · intro h
      exact Or.inr ⟨trivial, h⟩
    · rintro (h | ⟨-, h⟩)
      · exact absurd h char_nil_not_lt_nil
      · exact h
  | [], _ :: _, _, _, h => by simp at h
  | _ :: _, [], _, _, h => by simp at h
  | a :: a₁, b :: a₂, b₁, b₂, h => by
    simp only [List.cons_append]
    constructor
    · intro hlt
      cases hlt with
      | rel h₁ => exact Or.inl (List.Lex.rel h₁)
      | cons h₃ =>
        rcases (char_append_lt_append_iff a₁ a₂ b₁ b₂ (by simpa using h)).mp h₃
          with h' | ⟨rfl, h''⟩
        · exact Or.inl (List.Lex.cons h')
        · exact Or.inr ⟨rfl, h''⟩
    · rintro (h₁ | ⟨he, h₂⟩)
      · cases h₁ with
        | rel h' => exact List.Lex.rel h'
        | cons h' =>
          exact List.Lex.cons
            ((char_append_lt_append_iff a₁ a₂ b₁ b₂ (by simpa using h)).mpr
              (Or.inl h'))
      · cases he
        exact List.Lex.cons
          ((char_append_lt_append_iff a₁ a₁ b₁ b₂ rfl).mpr
            (Or.inr ⟨rfl, h₂⟩))

lemma char_singleton_lt_singleton_iff {a b : Char} : [a] < [b] ↔ a < b :=
  List.Lex.singleton_iff a b

/-! ### Helper lemmas: zero-padded decimal numerals -/

lemma digitChar_lt_digitChar_iff {a b : Nat} (ha : a < 10) (hb : b < 10) :
    digitChar a < digitChar b ↔ a < b := by
  interval_cases a <;> interval_cases b <;> decide

lemma digitChar_inj {a b : Nat} (ha : a < 10) (hb : b < 10) :
    digitChar a = digitChar b ↔ a = b := by
  interval_cases a <;> interval_cases b <;> decide

lemma digitChar_bounds {n : Nat} (h : n < 10) :
    '0' ≤ digitChar n ∧ digitChar n ≤ '9' := by
  interval_cases n <;> exact (by decide)

lemma digitsBE_length (w : Nat) : ∀ n : Nat, (digitsBE w n).length = w := by
  induction w with
  | zero => intro n; rfl
  | succ w ih => intro n; simp [digitsBE, ih]

lemma digitsBE_digits (w : Nat) :
    ∀ n : Nat, ∀ c ∈ digitsBE w n, '0' ≤ c ∧ c ≤ '9' := by
  induction w with
  | zero => intro n c hc; cases hc
  | succ w ih =>
    intro n c hc
    rw [digitsBE, List.mem_append] at hc
    rcases hc with hc | hc
    · exact ih _ c hc
    · rw [List.mem_singleton] at hc
      subst hc
      exact digitChar_bounds (Nat.mod_lt _ (by omega))

lemma digitsBE_inj (w : Nat) :
    ∀ n₁ n₂ : Nat, n₁ < 10 ^ w → n₂ < 10 ^ w →
      (digitsBE w n₁ = digitsBE w n₂ ↔ n₁ = n₂) := by
  induction w with
  | zero =>
    intro n₁ n₂ h₁ h₂
    simp only [pow_zero, Nat.lt_one_iff] at h₁ h₂
    subst h₁; subst h₂
    simp
  | succ w ih =>
    intro n₁ n₂ h₁ h₂
    have hd₁ : n₁ / 10 < 10 ^ w := by
      apply Nat.div_lt_of_lt_mul
      calc n₁ < 10 ^ (w + 1) := h₁
        _ = 10 * 10 ^ w := by ring
    have hd₂ : n₂ / 10 < 10 ^ w := by
      apply Nat.div_lt_of_lt_mul
      calc n₂ < 10 ^ (w + 1) := h₂
        _ = 10 * 10 ^ w := by ring
    rw [digitsBE, digitsBE]
    constructor
    · intro h
      have hsp := List.append_inj h (by simp [digitsBE_length])
      have he₁ := (ih _ _ hd₁ hd₂).mp hsp.1
      have he₂ : digitChar (n₁ % 10) = digitChar (n₂ % 10) := by
        simpa using hsp.2
      have he₃ := (digitChar_inj (Nat.mod_lt _ (by omega))
        (Nat.mod_lt _ (by omega))).mp he₂
      omega
    · intro h
      subst h
      rfl

lemma digitsBE_lt_iff (w : Nat) :
    ∀ n₁ n₂ : Nat, n₁ < 10 ^ w → n₂ < 10 ^ w →
      (digitsBE w n₁ < digitsBE w n₂ ↔ n₁ < n₂) := by
  induction w with
  | zero =>
    intro n₁ n₂ h₁ h₂
    simp only [pow_zero, Nat.lt_one_iff] at h₁ h₂
    subst h₁; subst h₂
    simp [digitsBE, char_nil_not_lt_nil]
  | succ w ih =>
    intro n₁ n₂ h₁ h₂
    have hd₁ : n₁ / 10 < 10 ^ w := by
      apply Nat.div_lt_of_lt_mul
      calc n₁ < 10 ^ (w + 1) := h₁
        _ = 10 * 10 ^ w := by ring
    have hd₂ : n₂ / 10 < 10 ^ w := by
      apply Nat.div_lt_of_lt_mul
      calc n₂ < 10 ^ (w + 1) := h₂
        _ = 10 * 10 ^ w := by ring
    rw [digitsBE, digitsBE,
      char_append_lt_append_iff _ _ _ _ (by simp [digitsBE_length]),
      ih _ _ hd₁ hd₂, digitsBE_inj w _ _ hd₁ hd₂,
      char_singleton_lt_singleton_iff,
      digitChar_lt_digitChar_iff (Nat.mod_lt _ (by omega))
        (Nat.mod_lt _ (by omega))]
    omega

/-! ### Helper lemmas: the timestamp format -/

lemma data_padNum (w n : Nat) : (padNum w n).data = digitsBE w n :=
  rfl

lemma data_dash : ("-" : String).data = ['-'] :=
  rfl

lemma formatTimestamp_data (t : DateTime) :
    (formatTimestamp t).data =
      digitsBE 4 t.year ++ (digitsBE 2 t.month ++ (digitsBE 2 t.day ++
        ('-' :: (digitsBE 2 t.hour ++
          (digitsBE 2 t.minute ++ digitsBE 2 t.second))))) := by
  simp [formatTimestamp, data_padNum, data_dash, List.append_assoc]

lemma formatTimestamp_length (t : DateTime) :
    (formatTimestamp t).length = 15 := by
  have h : (formatTimestamp t).length = (formatTimestamp t).data.length := rfl
  rw [h, formatTimestamp_data]
  simp [digitsBE_length]

lemma formatTimestamp_strictMono {t₁ t₂ : DateTime}
    (h₁ : ValidDateTime t₁) (h₂ : ValidDateTime t₂) (h : chronoLt t₁ t₂) :
    formatTimestamp t₁ < formatTimestamp t₂ := by
  have e4 : (10 : ℕ) ^ 4 = 10000 := by norm_num
  have e2 : (10 : ℕ) ^ 2 = 100 := by norm_num
  unfold ValidDateTime at h₁ h₂
  obtain ⟨hy₁, hy₁', hmo₁, hmo₁', hd₁, hd₁', hh₁, hmi₁, hs₁⟩ := h₁
  obtain ⟨hy₂, hy₂', hmo₂, hmo₂', hd₂, hd₂', hh₂, hmi₂, hs₂⟩ := h₂
  rw [String.lt_iff_toList_lt]
  show (formatTimestamp t₁).data < (formatTimestamp t₂).data
  rw [formatTimestamp_data, formatTimestamp_data]
  unfold chronoLt at h
  rcases h with hy | ⟨hy, h⟩
  · exact (char_append_lt_append_iff _ _ _ _ (by simp [digitsBE_length])).mpr
      (Or.inl ((digitsBE_lt_iff 4 _ _ (by rw [e4]; omega)
        (by rw [e4]; omega)).mpr hy))
  · refine (char_append_lt_append_iff _ _ _ _ (by simp [digitsBE_length])).mpr
      (Or.inr ⟨by rw [hy], ?_⟩)
    rcases h with hm | ⟨hm, h⟩
    · exact (char_append_lt_append_iff _ _ _ _ (by simp [digitsBE_length])).mpr
        (Or.inl ((digitsBE_lt_iff 2 _ _ (by rw [e2]; omega)
          (by rw [e2]; omega)).mpr hm))
    · refine (char_append_lt_append_iff _ _ _ _ (by simp [digitsBE_length])).mpr
        (Or.inr ⟨by rw [hm], ?_⟩)
      rcases h with hd | ⟨hd, h⟩
      · exact (char_append_lt_append_iff _ _ _ _ (by simp [digitsBE_length])).mpr
          (Or.inl ((digitsBE_lt_iff 2 _ _ (by rw [e2]; omega)
            (by rw [e2]; omega)).mpr hd))
      · refine (char_append_lt_append_iff _ _ _ _ (by simp [digitsBE_length])).mpr
          (Or.inr ⟨by rw [hd], ?_⟩)
        refine List.Lex.cons ?_
        rcases h with hh | ⟨hh, h⟩
        · exact (char_append_lt_append_iff _ _ _ _ (by simp [digitsBE_length])).mpr
            (Or.inl ((digitsBE_lt_iff 2 _ _ (by rw [e2]; omega)
              (by rw [e2]; omega)).mpr hh))
        · refine (char_append_lt_append_iff _ _ _ _ (by simp [digitsBE_length])).mpr
            (Or.inr ⟨by rw [hh], ?_⟩)
          rcases h with hmi | ⟨hmi, hs⟩
          · exact (char_append_lt_append_iff _ _ _ _ (by simp [digitsBE_length])).mpr
              (Or.inl ((digitsBE_lt_iff 2 _ _ (by rw [e2]; omega)
                (by rw [e2]; omega)).mpr hmi))
          · refine (char_append_lt_append_iff _ _ _ _ (by simp [digitsBE_length])).mpr
              (Or.inr ⟨by rw [hmi], ?_⟩)
            exact (digitsBE_lt_iff 2 _ _ (by rw [e2]; omega)
              (by rw [e2]; omega)).mpr hs

/-! ### Helper lemmas: running `save_order` -/

lemma makedirs_exist_ok (dirs : List String) (d : String) :
    makedirs dirs d true = Except.ok (if dirs.contains d then dirs else d :: dirs) := by
  by_cases h : d ∈ dirs <;> simp [makedirs, h]

lemma save_order_ok_eq (dT sz mk : String) (ex : List String) (nm : String)
    (t : DateTime) (fs : Fs) (h : fs.writeError (orderFilename t nm) = none) :
    save_order dT sz mk ex nm t fs =
      Except.ok
        ({ status := "saved", filename := orderFilename t nm,
           message := orderMessage dT sz mk ex nm,
           order := asdict ⟨dT, sz, mk, ex, nm⟩ },
         { dirs := if fs.dirs.contains "orders" then fs.dirs
                   else "orders" :: fs.dirs,
           files := setFile fs.files (orderFilename t nm)
             (asdict ⟨dT, sz, mk, ex, nm⟩),
           writeError := fs.writeError }) := by
  unfold save_order
  rw [makedirs_exist_ok]
  simp [h]

lemma save_order_error_eq (dT sz mk : String) (ex : List String) (nm : String)
    (t : DateTime) (fs : Fs) (e : FsError)
    (h : fs.writeError (orderFilename t nm) = some e) :
    save_order dT sz mk ex nm t fs = Except.error e := by
  unfold save_order
  rw [makedirs_exist_ok]
  simp [h]

lemma save_order_ok_inv (dT sz mk : String) (ex : List String) (nm : String)
    (t : DateTime) (fs : Fs) (res : SaveResult) (fs' : Fs)
    (h : save_order dT sz mk ex nm t fs = Except.ok (res, fs')) :
    res = { status := "saved", filename := orderFilename t nm,
            message := orderMessage dT sz mk ex nm,
            order := asdict ⟨dT, sz, mk, ex, nm⟩ } ∧
    fs' = { dirs := if fs.dirs.contains "orders" then fs.dirs
                    else "orders" :: fs.dirs,
            files := setFile fs.files (orderFilename t nm)
              (asdict ⟨dT, sz, mk, ex, nm⟩),
            writeError := fs.writeError } := by
  cases hw : fs.writeError (orderFilename t nm) with
  | none =>
    rw [save_order_ok_eq dT sz mk ex nm t fs hw] at h
    simp only [Except.ok.injEq, Prod.mk.injEq] at h
    exact ⟨h.1.symm, h.2.symm⟩
  | some e =>
    rw [save_order_error_eq dT sz mk ex nm t fs e hw] at h
    exact Except.noConfusion h

lemma safe_name_eq_map (name : String) (h : name ≠ "") :
    (safe_name name).data =
      name.data.map (fun c => if c = ' ' then '_' else c) := by
  simp [safe_name, h]

lemma getFile_setFile (files : List (String × Json)) (fn : String) (c : Json) :
    getFile (setFile files fn c) fn = some c := by
  simp [getFile, setFile]

lemma setFile_setFile (files : List (String × Json)) (fn : String) (c c' : Json) :
    setFile (setFile files fn c) fn c' = setFile files fn c' := by
  simp [setFile, List.filter_filter]

lemma setFile_unique (files : List (String × Json)) (fn : String) (c : Json) :
    ((setFile files fn c).filter (fun p => p.1 == fn)).length = 1 := by
  have hfalse : ∀ p : String × Json, ((p.1 == fn) && (p.1 != fn)) = false := by
    intro p
    by_cases h : p.1 = fn <;> simp [h]
  simp [setFile, List.filter_filter, hfalse]

/-! ### Claim theorems -/

/-- Claim C3: the filesystem token derived by `save_order` equals
`"guest"` when the name is empty, and otherwise equals the name with
every space character replaced by an underscore and no other character
altered. -/
theorem safe_name_guest_or_space_map (name : String) :
    (name = "" → safe_name name = "guest") ∧
    (name ≠ "" →
      (safe_name name).data =
        name.data.map (fun c => if c = ' ' then '_' else c)) := by
  constructor
  · rintro rfl
    rfl
  · intro h
    exact safe_name_eq_map name h

/-- Witness for C3 at the spec's example: "Jane Doe" maps charwise, every
space to an underscore. -/
theorem safe_name_guest_or_space_map_witness :
    (safe_name "Jane Doe").data =
      "Jane Doe".data.map (fun c => if c = ' ' then '_' else c) :=
  (safe_name_guest_or_space_map "Jane Doe").2 (by decide)

/-- Claim C7: the directory-creation step of `save_order`
(`os.makedirs("orders", exist_ok=True)`, line 103) is idempotent — when
`orders` already exists it succeeds and leaves the directories unchanged,
and when absent it creates the directory. -/
theorem makedirs_orders_idempotent (dirs : List String) :
    (dirs.contains "orders" = true →
      makedirs dirs "orders" true = Except.ok dirs) ∧
    (dirs.contains "orders" = false →
      makedirs dirs "orders" true = Except.ok ("orders" :: dirs)) := by
  constructor
  · intro h
    rw [makedirs_exist_ok, if_pos h]
  · intro h
    rw [makedirs_exist_ok, if_neg (by simp_all)]

/-- Witness for C7: creating `orders` when it already exists does not
fail and changes nothing. -/
theorem makedirs_orders_idempotent_witness :
    makedirs ["orders"] "orders" true = Except.ok ["orders"] :=
  (makedirs_orders_idempotent ["orders"]).1 (by decide)

/-- Claim C9: a session start issues exactly two opening-greeting
instructions to the language model — the one from the dialogue agent's
own entry hook `on_enter` and the near-duplicate one issued by the
session bootstrap right after `session.start` returns. -/
theorem session_start_issues_two_greetings :
    sessionStartGreetings.length = 2 ∧
    sessionStartGreetings = [onEnterGreeting, bootstrapGreeting] ∧
    onEnterGreeting ≠ bootstrapGreeting ∧
    "Greet the user as a".data <+: onEnterGreeting.data ∧
    "Greet the user as a".data <+: bootstrapGreeting.data :=
  ⟨rfl, rfl, by decide,
   ⟨(" barista at Moonbeam Coffee and ask " ++
      "what they would like to order.").data, by decide⟩,
   ⟨(" coffee shop barista at Moonbeam Coffee. " ++
      "Ask what they\x27d like to order.").data, by decide⟩⟩

/-- Claim C10: the `"guest"` placeholder is substituted only for the
exactly-empty name: a non-empty name consisting solely of spaces yields a
string of underscores of the same length, not `"guest"`. -/
theorem safe_name_spaces_not_guest (name : String) (h₁ : name ≠ "")
    (h₂ : ∀ c ∈ name.data, c = ' ') :
    safe_name name = String.mk (List.replicate name.data.length '_') ∧
    safe_name name ≠ "guest" := by
  have hrep : name.data = List.replicate name.data.length ' ' :=
    List.eq_replicate_iff.mpr ⟨rfl, h₂⟩
  have hmap : (safe_name name).data = List.replicate name.data.length '_' := by
    rw [safe_name_eq_map name h₁]
    rw [hrep]
    simp
  constructor
  · exact String.ext hmap
  · intro hguest
    have hdata : (safe_name name).data = "guest".data := by rw [hguest]
    rw [hmap] at hdata
    have hlen : name.data.length = 5 := by
      have := congrArg List.length hdata
      simpa using this
    rw [hlen] at hdata
    exact absurd hdata (by decide)

/-- Witness for C10 at the one-space name: the token is `"_"`, not
`"guest"`. -/
theorem safe_name_spaces_not_guest_witness :
    safe_name " " = String.mk (List.replicate " ".data.length '_') ∧
    safe_name " " ≠ "guest" :=
  safe_name_spaces_not_guest " " (by decide) (by decide)

/-- Claim C1: a successful `save_order` invocation writes a file whose
JSON content equals exactly the five input values, with the fields in
the fixed order drinkType, size, milk, extras, name. -/
theorem save_order_writes_fixed_order_json (dT sz mk : String)
    (ex : List String) (nm : String) (t : DateTime) (fs : Fs)
    (res : SaveResult) (fs' : Fs)
    (h : save_order dT sz mk ex nm t fs = Except.ok (res, fs')) :
    getFile fs'.files res.filename =
      some (Json.obj
        [("drinkType", Json.str dT), ("size", Json.str sz),
         ("milk", Json.str mk), ("extras", Json.arr (ex.map Json.str)),
         ("name", Json.str nm)]) := by
  obtain ⟨hres, hfs⟩ := save_order_ok_inv dT sz mk ex nm t fs res fs' h
  subst hres; subst hfs
  exact getFile_setFile _ _ _

/-- Witness for C1: the concrete Sam order file read back. -/
theorem save_order_writes_fixed_order_json_witness :
    getFile (setFile cleanFs.files (orderFilename t0 "Sam") samJson)
      (orderFilename t0 "Sam") =
      some (Json.obj
        [("drinkType", Json.str "latte"), ("size", Json.str "medium"),
         ("milk", Json.str "oat"),
         ("extras", Json.arr (["extra shot"].map Json.str)),
         ("name", Json.str "Sam")]) :=
  save_order_writes_fixed_order_json "latte" "medium" "oat" ["extra shot"]
    "Sam" t0 cleanFs _ _ rfl

/-- Claim C2: the end-to-end scenario — for input (latte, medium, oat,
[extra shot], Sam), `save_order` writes `orders/<timestamp>_Sam.json`
containing the expected JSON object and returns the expected message
string. -/
theorem save_order_sam_end_to_end (t : DateTime) (fs : Fs)
    (res : SaveResult) (fs' : Fs)
    (h : save_order "latte" "medium" "oat" ["extra shot"] "Sam" t fs =
      Except.ok (res, fs')) :
    res.filename = "orders/" ++ formatTimestamp t ++ "_Sam.json" ∧
    getFile fs'.files res.filename =
      some (Json.obj
        [("drinkType", Json.str "latte"), ("size", Json.str "medium"),
         ("milk", Json.str "oat"),
         ("extras", Json.arr [Json.str "extra shot"]),
         ("name", Json.str "Sam")]) ∧
    res.message =
      "Saved order for Sam: medium latte with oat milk and extra shot." := by
  obtain ⟨hres, hfs⟩ := save_order_ok_inv "latte" "medium" "oat"
    ["extra shot"] "Sam" t fs res fs' h
  subst hres; subst hfs
  refine ⟨?_, getFile_setFile _ _ _, ?_⟩
  · show orderFilename t "Sam" = _
    unfold orderFilename
    have hsafe : safe_name "Sam" = "Sam" := rfl
    have e1 : ("orders" : String) ++ "/" = "orders/" := rfl
    have e2 : ("_" : String) ++ "Sam" = "_Sam" := rfl
    have e3 : ("_Sam" : String) ++ ".json" = "_Sam.json" := rfl
    rw [hsafe, e1, String.append_assoc _ "_" "Sam", e2,
      String.append_assoc _ "_Sam" ".json", e3]
  · rfl

/-- Witness for C2 at the concrete clock instant `t0`. -/
theorem save_order_sam_end_to_end_witness :
    orderFilename t0 "Sam" = "orders/" ++ formatTimestamp t0 ++ "_Sam.json" ∧
    getFile (setFile cleanFs.files (orderFilename t0 "Sam") samJson)
      (orderFilename t0 "Sam") =
      some (Json.obj
        [("drinkType", Json.str "latte"), ("size", Json.str "medium"),
         ("milk", Json.str "oat"),
         ("extras", Json.arr [Json.str "extra shot"]),
         ("name", Json.str "Sam")]) ∧
    orderMessage "latte" "medium" "oat" ["extra shot"] "Sam" =
      "Saved order for Sam: medium latte with oat milk and extra shot." :=
  save_order_sam_end_to_end t0 cleanFs _ _ rfl

/-- Claim C5: the summary message has no "and" clause when extras is
empty, and lists all extras joined by ", " after " and " when
non-empty. -/
theorem save_order_message_extras_clause (dT sz mk : String)
    (ex : List String) (nm : String) (t : DateTime) (fs : Fs)
    (res : SaveResult) (fs' : Fs)
    (h : save_order dT sz mk ex nm t fs = Except.ok (res, fs')) :
    (ex = [] → res.message =
      "Saved order for " ++ nm ++ ": " ++ sz ++ " " ++ dT ++
        " with " ++ mk ++ " milk" ++ ".") ∧
    (ex ≠ [] → res.message =
      "Saved order for " ++ nm ++ ": " ++ sz ++ " " ++ dT ++
        " with " ++ mk ++ " milk" ++ " and " ++
        String.intercalate ", " ex ++ ".") := by
  obtain ⟨hres, -⟩ := save_order_ok_inv dT sz mk ex nm t fs res fs' h
  subst hres
  constructor
  · rintro rfl
    simp [orderMessage]
  · intro hne
    cases ex with
    | nil => exact absurd rfl hne
    | cons e tl =>
      refine String.ext ?_
      simp [orderMessage, String.data_append, List.append_assoc]

/-- Witness for C5 with the non-empty extras list of the Sam scenario. -/
theorem save_order_message_extras_clause_witness :
    orderMessage "latte" "medium" "oat" ["extra shot"] "Sam" =
      "Saved order for " ++ "Sam" ++ ": " ++ "medium" ++ " " ++ "latte" ++
        " with " ++ "oat" ++ " milk" ++ " and " ++
        String.intercalate ", " ["extra shot"] ++ "." :=
  (save_order_message_extras_clause "latte" "medium" "oat" ["extra shot"]
    "Sam" t0 cleanFs _ _ rfl).2 (by decide)

/-- Claim C6: `save_order` is not idempotent — two invocations with
identical inputs in the same second compute the same filename, the
second (overwrite-mode) write replaces the first, and exactly one file
with that name results. -/
theorem save_order_same_second_overwrites (dT sz mk : String)
    (ex : List String) (nm : String) (t : DateTime) (fs : Fs)
    (r₁ r₂ : SaveResult) (fs₁ fs₂ : Fs)
    (h₁ : save_order dT sz mk ex nm t fs = Except.ok (r₁, fs₁))
    (h₂ : save_order dT sz mk ex nm t fs₁ = Except.ok (r₂, fs₂)) :
    r₂.filename = r₁.filename ∧
    fs₂.files = fs₁.files ∧
    (fs₂.files.filter (fun p => p.1 == r₂.filename)).length = 1 := by
  obtain ⟨hr₁, hf₁⟩ := save_order_ok_inv dT sz mk ex nm t fs r₁ fs₁ h₁
  obtain ⟨hr₂, hf₂⟩ := save_order_ok_inv dT sz mk ex nm t fs₁ r₂ fs₂ h₂
  subst hr₁; subst hf₁; subst hr₂; subst hf₂
  exact ⟨rfl, setFile_setFile _ _ _ _, setFile_unique _ _ _⟩

/-- Witness for C6: two same-second Sam saves on a fresh filesystem. -/
theorem save_order_same_second_overwrites_witness :
    orderFilename t0 "Sam" = orderFilename t0 "Sam" ∧
    setFile (setFile cleanFs.files (orderFilename t0 "Sam") samJson)
        (orderFilename t0 "Sam") samJson =
      setFile cleanFs.files (orderFilename t0 "Sam") samJson ∧
    ((setFile (setFile cleanFs.files (orderFilename t0 "Sam") samJson)
        (orderFilename t0 "Sam") samJson).filter
      (fun p => p.1 == orderFilename t0 "Sam")).length = 1 :=
  save_order_same_second_overwrites "latte" "medium" "oat" ["extra shot"]
    "Sam" t0 cleanFs _ _ _ _ rfl rfl

/-- Claim C8: on every normal return of `save_order` the order file is
present on the filesystem (the single write happens before the return),
and any filesystem error raised while opening/writing the file
propagates to the caller unchanged — no retry, no fallback. -/
theorem save_order_sync_write_and_error_propagation (dT sz mk : String)
    (ex : List String) (nm : String) :
    (∀ (t : DateTime) (fs : Fs) (res : SaveResult) (fs' : Fs),
      save_order dT sz mk ex nm t fs = Except.ok (res, fs') →
      getFile fs'.files res.filename = some (asdict ⟨dT, sz, mk, ex, nm⟩)) ∧
    (∀ (t : DateTime) (fs : Fs) (e : FsError),
      fs.writeError (orderFilename t nm) = some e →
      save_order dT sz mk ex nm t fs = Except.error e) := by
  constructor
  · intro t fs res fs' h
    obtain ⟨hres, hfs⟩ := save_order_ok_inv dT sz mk ex nm t fs res fs' h
    subst hres; subst hfs
    exact getFile_setFile _ _ _
  · intro t fs e h
    exact save_order_error_eq dT sz mk ex nm t fs e h

/-- Witness for C8: a successful save leaves the file on disk, and a
permission-denied injection on the target path propagates as the
returned error. -/
theorem save_order_sync_write_and_error_propagation_witness :
    getFile (setFile cleanFs.files (orderFilename t0 "Sam") samJson)
      (orderFilename t0 "Sam") = some samJson ∧
    save_order "latte" "medium" "oat" ["extra shot"] "Sam" t0 deniedFs =
      Except.error FsError.permissionDenied :=
  ⟨(save_order_sync_write_and_error_propagation "latte" "medium" "oat"
      ["extra shot"] "Sam").1 t0 cleanFs _ _ rfl,
   (save_order_sync_write_and_error_propagation "latte" "medium" "oat"
      ["extra shot"] "Sam").2 t0 deniedFs FsError.permissionDenied rfl⟩

/-- Claim C4: a successful `save_order` returns the record with exactly
the four fields status, filename, message, order — status is always
"saved", filename is `orders/<timestamp>_<token>.json` with the
timestamp in the fixed-width (15 characters: 8 digits, a dash, 6 digits)
sortable (strictly increasing with chronological order) form
YYYYMMDD-HHMMSS, and order is the five input values as structured
data. -/
theorem save_order_result_record (dT sz mk : String) (ex : List String)
    (nm : String) (t : DateTime) (fs : Fs) (res : SaveResult) (fs' : Fs)
    (hv : ValidDateTime t)
    (h : save_order dT sz mk ex nm t fs = Except.ok (res, fs')) :
    res = { status := "saved", filename := orderFilename t nm,
            message := orderMessage dT sz mk ex nm,
            order := asdict ⟨dT, sz, mk, ex, nm⟩ } ∧
    res.filename =
      "orders" ++ "/" ++ formatTimestamp t ++ "_" ++ safe_name nm ++ ".json" ∧
    (formatTimestamp t).length = 15 ∧
    (∃ ds ts : List Char,
      (formatTimestamp t).data = ds ++ '-' :: ts ∧
      ds.length = 8 ∧ ts.length = 6 ∧
      (∀ c ∈ ds, '0' ≤ c ∧ c ≤ '9') ∧ (∀ c ∈ ts, '0' ≤ c ∧ c ≤ '9')) ∧
    (∀ t' : DateTime, ValidDateTime t' → chronoLt t t' →
      formatTimestamp t < formatTimestamp t') := by
  obtain ⟨hres, -⟩ := save_order_ok_inv dT sz mk ex nm t fs res fs' h
  refine ⟨hres, ?_, formatTimestamp_length t, ?_, ?_⟩
  · rw [hres]
    rfl
  · refine ⟨digitsBE 4 t.year ++ (digitsBE 2 t.month ++ digitsBE 2 t.day),
      digitsBE 2 t.hour ++ (digitsBE 2 t.minute ++ digitsBE 2 t.second),
      ?_, by simp [digitsBE_length], by simp [digitsBE_length], ?_, ?_⟩
    · rw [formatTimestamp_data]
      simp [List.append_assoc]
    · intro c hc
      rcases List.mem_append.mp hc with hc | hc
      · exact digitsBE_digits 4 _ c hc
      · rcases List.mem_append.mp hc with hc | hc
        · exact digitsBE_digits 2 _ c hc
        · exact digitsBE_digits 2 _ c hc
    · intro c hc
      rcases List.mem_append.mp hc with hc | hc
      · exact digitsBE_digits 2 _ c hc
      · rcases List.mem_append.mp hc with hc | hc
        · exact digitsBE_digits 2 _ c hc
        · exact digitsBE_digits 2 _ c hc
  · intro t' hv' hlt
    exact formatTimestamp_strictMono hv hv' hlt

/-- Witness for C4: the Sam save at the concrete instant `t0` on a fresh
filesystem. -/
theorem save_order_result_record_witness :
    samResult = { status := "saved", filename := orderFilename t0 "Sam",
                  message := orderMessage "latte" "medium" "oat"
                    ["extra shot"] "Sam",
                  order := asdict ⟨"latte", "medium", "oat",
                    ["extra shot"], "Sam"⟩ } ∧
    samResult.filename =
      "orders" ++ "/" ++ formatTimestamp t0 ++ "_" ++ safe_name "Sam" ++
        ".json" ∧
    (formatTimestamp t0).length = 15 ∧
    (∃ ds ts : List Char,
      (formatTimestamp t0).data = ds ++ '-' :: ts ∧
      ds.length = 8 ∧ ts.length = 6 ∧
      (∀ c ∈ ds, '0' ≤ c ∧ c ≤ '9') ∧ (∀ c ∈ ts, '0' ≤ c ∧ c ≤ '9')) ∧
    (∀ t' : DateTime, ValidDateTime t' → chronoLt t0 t' →
      formatTimestamp t0 < formatTimestamp t') :=
  save_order_result_record "latte" "medium" "oat" ["extra shot"] "Sam" t0
    cleanFs samResult _ (by decide) rfl
